import Mathlib

/-!
Verification of the Agent Registry & Task-Collaboration subsystem of the
A2A-MCP-RealEstate repository.

The definitions below are a shallow embedding of the Python sources:
  * `app/agent/agent_registry.py`  (agent records, recommendation scoring,
    `get_all_agents`)
  * `app/agent/collaboration.py`   (task requests/responses, workflows,
    `request_collaboration`, `execute_workflow` and the three strategies)
  * `app/agent/json_rpc.py`        (JSON-RPC 2.0 request processing)

Machine integers are modelled as `Int` (Python integers are unbounded, and
`//` is floor division, `Int.fdiv`).  Python dictionaries that the code
iterates over are modelled as association lists in insertion order, which is
exactly the iteration order of a Python `dict`.  Network I/O (HTTP calls to
remote agents, `json.loads`, `uuid.uuid4`) is modelled by explicit oracle
parameters.
-/

/-- A JSON-like value, the model of a Python object stored in the various
`Dict[str, Any]` payloads of the source. -/
inductive JVal : Type where
  | null : JVal
  | bool : Bool → JVal
  | num : Int → JVal
  | str : String → JVal
  | arr : List JVal → JVal
  | obj : List (String × JVal) → JVal
deriving Repr

/-- A Python `dict` with string keys, in insertion order. -/
abbrev JObj := List (String × JVal)

/-- Substring test on character lists: Python's `needle in hay` for strings.
`"" in s` is `True` in Python, matching `isPrefixOf [] _ = true`. -/
def strInfix (needle : List Char) : (hay : List Char) → Bool
  | [] => needle.isEmpty
  | c :: t => needle.isPrefixOf (c :: t) || strInfix needle t

/-- Python's `needle in hay` on strings. -/
def pyIn (needle hay : String) : Bool := strInfix needle.data hay.data

/-- `d[k] = v` on a Python dict modelled as an association list: overwrites in
place if the key is present (keeping its position), otherwise appends. -/
def dictInsert (m : JObj) (k : String) (v : JVal) : JObj :=
  if m.any (fun p => p.1 == k) then
    m.map (fun p => if p.1 == k then (k, v) else p)
  else m ++ [(k, v)]

/-- Python's `⟨**a, **b⟩` dict merge: `b`'s entries override `a`'s. -/
def dictMerge (a b : JObj) : JObj :=
  b.foldl (fun acc p => dictInsert acc p.1 p.2) a

/-- Lookup in a Python dict modelled as an association list (`d.get(k)`). -/
def jLookup (m : JObj) (k : String) : Option JVal :=
  (m.find? (fun p => p.1 == k)).map (·.2)

/-- `RegistryAgent` from `agent_registry.py` (pydantic model). -/
structure RegistryAgent where
  agent_id : String
  name : String
  description : String
  well_known_url : String
  base_url : String
  aliases : List String
  keywords : List String
  capabilities : List String
  specialty : String
  language : List String
  personality_traits : List String
  status : String := "active"
  trust_level : Int := 5
  popularity_score : Int := 50
deriving Repr, DecidableEq

/-- Python's `str.lower()` (ASCII case folding), computed structurally on the
character list so that it reduces in the kernel. -/
def pyLower (s : String) : String := String.mk (s.data.map Char.toLower)

/-- The score computed for one agent inside
`AgentRegistry.get_recommended_agents`, following the source line by line:
+3 per matching keyword, +5 per matching alias, +4 for a name substring
match, +2 for a specialty substring match, plus
`trust_level + popularity_score // 20`.  All text matching is on lowercased
strings, substring containment against the lowercased user message. -/
def score (a : RegistryAgent) (user_message : String) : Int :=
  let message_lower := pyLower user_message
  let s1 := a.keywords.foldl
    (fun s keyword => if pyIn (pyLower keyword) message_lower then s + 3 else s) 0
  let s2 := a.aliases.foldl
    (fun s alias0 => if pyIn (pyLower alias0) message_lower then s + 5 else s) s1
  let s3 := if pyIn (pyLower a.name) message_lower then s2 + 4 else s2
  let s4 := if pyIn (pyLower a.specialty) message_lower then s3 + 2 else s3
  s4 + (a.trust_level + a.popularity_score.fdiv 20)

/-- The ordering used for Python's stable `sorted(..., key=key, reverse=True)`:
element `a` may come before `b` when `key b ≤ key a`. -/
@[reducible] def keyGe {α K : Type} [LinearOrder K] (key : α → K) (a b : α) : Prop :=
  key b ≤ key a

instance {α K : Type} [LinearOrder K] (key : α → K) : DecidableRel (keyGe key) :=
  fun a b => inferInstanceAs (Decidable (key b ≤ key a))

instance {α K : Type} [LinearOrder K] (key : α → K) : IsTotal α (keyGe key) :=
  ⟨fun a b => le_total (key b) (key a)⟩

instance {α K : Type} [LinearOrder K] (key : α → K) : IsTrans α (keyGe key) :=
  ⟨fun _ _ _ h1 h2 => le_trans h2 h1⟩

/-- Python's `sorted(l, key=key, reverse=True)`: a stable sort putting larger
keys first.  Insertion sort from the right with `keyGe` is exactly this
stable order. -/
def sortDescBy {α K : Type} [LinearOrder K] (key : α → K) (l : List α) : List α :=
  l.insertionSort (keyGe key)

/-- The scored candidate list built by `get_recommended_agents`: every
registered agent paired with its score, in registration (dict-insertion)
order, keeping only strictly positive scores. -/
def scoredCandidates (agents : List RegistryAgent) (user_message : String) :
    List (RegistryAgent × Int) :=
  (agents.map (fun a => (a, score a user_message))).filter (fun p => decide (0 < p.2))

/-- `sorted(agent_scores.items(), key=lambda x: x[1], reverse=True)`:
the positive-score candidates sorted by descending score, stably. -/
def rankedAgents (agents : List RegistryAgent) (user_message : String) :
    List (RegistryAgent × Int) :=
  sortDescBy (fun p => p.2) (scoredCandidates agents user_message)

/-- `AgentRegistry.get_recommended_agents(user_message, limit)`: the top
`limit` positive-score agents, best score first. -/
def get_recommended_agents (agents : List RegistryAgent) (user_message : String)
    (limit : Nat) : List RegistryAgent :=
  ((rankedAgents agents user_message).take limit).map Prod.fst

/-- `AgentRegistry.get_all_agents(active_only)`: optionally restrict to
`status == "active"`, then sort by `(trust_level, popularity_score)`
descending (Python tuple keys compare lexicographically). -/
def get_all_agents (agents : List RegistryAgent) (active_only : Bool) :
    List RegistryAgent :=
  let l := if active_only then agents.filter (fun a => a.status == "active") else agents
  sortDescBy (fun a => toLex (a.trust_level, a.popularity_score)) l

/-- Textual part of the recommendation score: does the message match any
keyword, alias, the name, or the specialty of the agent? -/
def textualHits (a : RegistryAgent) (user_message : String) : Bool :=
  let ml := pyLower user_message
  a.keywords.any (fun kw => pyIn (pyLower kw) ml) ||
  a.aliases.any (fun al => pyIn (pyLower al) ml) ||
  pyIn (pyLower a.name) ml || pyIn (pyLower a.specialty) ml

/-- `TaskRequest` from `collaboration.py` (pydantic model). -/
structure TaskRequest where
  task_id : String
  requester_id : String
  task_type : String
  description : String
  requirements : JObj
  priority : Int := 1
  deadline : Option String := none
  collaboration_type : String := "sequential"
deriving Repr

/-- `TaskResponse` from `collaboration.py` (pydantic model). -/
structure TaskResponse where
  task_id : String
  agent_id : String
  status : String
  result : Option JObj := none
  next_agent : Option String := none
  completion_time : Option String := none
deriving Repr

/-- One workflow step (`StepSpec`): the source keeps steps as dicts and reads
`step["type"]`, `step["description"]`, `step.get("requirements", ⟨⟩)`. -/
structure Step where
  type : String
  description : String
  requirements : JObj := []
deriving Repr

/-- `CollaborationWorkflow` from `collaboration.py` (pydantic model);
`created_at` is an opaque timestamp string here. -/
structure CollaborationWorkflow where
  workflow_id : String
  name : String
  description : String
  agents : List String
  steps : List Step
  status : String := "pending"
  created_at : String := ""
deriving Repr

/-- Outcome of `A2AAgent.send_message` plus `TaskResponse(**response)` for a
single target agent, as observed inside `request_collaboration`'s per-agent
`try` block: the send (or the response parsing) raised, or the HTTP call
returned non-200 / a falsy body (`if response:` fails), or it produced a
well-formed `TaskResponse`. -/
inductive SendOutcome where
  | raised (e : String)
  | noResponse
  | responded (r : TaskResponse)

/-- The network environment: what each target agent answers to a message. -/
abbrev SendOracle := String → TaskRequest → SendOutcome

/-- The `TaskResponse` kept for one agent, if any. -/
def respOf : SendOutcome → Option TaskResponse
  | .responded r => some r
  | _ => none

/-- `CollaborativeAgent.request_collaboration(task, target_agents)`.
`findSuitable` is the oracle for `_find_suitable_agents` (a discovery HTTP
call), used only when `target_agents` is falsy (`None` or `[]`).  Each agent
in the target list is messaged inside `try/except`: a raise or a falsy
response contributes nothing, a parsed response is appended. -/
def request_collaboration (send : SendOracle)
    (findSuitable : Except String (List String))
    (task : TaskRequest) (target_agents : List String) :
    Except String (List TaskResponse) := do
  let targets ← if target_agents.isEmpty then findSuitable else .ok target_agents
  .ok (targets.foldl (fun responses aid =>
    match send aid task with
    | .responded r => responses ++ [r]
    | _ => responses) [])

/-- The semantics of a `self.request_collaboration(task, targets)` coroutine
as the workflow executors see it: a value, or a raised exception.  The
executors are parametric in this behaviour, exactly as the Python methods
are parametric in `self`. -/
abbrev Rc := TaskRequest → List String → Except String (List TaskResponse)

/-- The behaviour of the actual `request_collaboration` method. -/
def defaultRc (send : SendOracle) (findSuitable : Except String (List String)) : Rc :=
  fun task targets => request_collaboration send findSuitable task targets

/-- One dispatch performed by a workflow executor: the `TaskRequest` passed
to `request_collaboration` together with its target-agent list. -/
abbrev Dispatch := TaskRequest × List String

/-- `workflow.agents[i % len(workflow.agents)]` raises this when the agent
list is empty. -/
def zeroDivMsg : String := "ZeroDivisionError: integer division or modulo by zero"

/-- Values stored in the result dict returned by `execute_workflow`. -/
inductive WfVal where
  | obj (o : JObj)
  | responses (rs : List TaskResponse)
  | exc (e : String)
deriving Repr

/-- The `TaskRequest` built for step `i` of a sequential workflow: the step's
requirements merged with the previous step's result
(`⟨**step.get("requirements", ⟨⟩), **current_data⟩`). -/
def mkSeqRequest (wfId reqId : String) (i : Nat) (step : Step) (current : JObj) :
    TaskRequest :=
  { task_id := wfId ++ "_step_" ++ toString i
    requester_id := reqId
    task_type := step.type
    description := step.description
    requirements := dictMerge step.requirements current }

/-- The loop of `_execute_sequential_workflow`, also returning the list of
dispatches it performed.  `i` is the running step index, `current` the
result of the previous completed step. -/
def execSeqGo (rc : Rc) (wfId reqId : String) (agents : List String) :
    List Step → Nat → JObj → List Dispatch × Except String (List (String × WfVal))
  | [], _, _ => ([], .ok [])
  | step :: rest, i, current =>
    if agents.isEmpty then ([], .error zeroDivMsg)
    else
      let aid := agents.getD (i % agents.length) ""
      let req := mkSeqRequest wfId reqId i step current
      match rc req [aid] with
      | .error e => ([(req, [aid])], .error e)
      | .ok (r :: _) =>
        if r.status == "completed" then
          let current_data := r.result.getD []
          let next := execSeqGo rc wfId reqId agents rest (i + 1) current_data
          ((req, [aid]) :: next.1,
            match next.2 with
            | .ok acc => .ok (("step_" ++ toString i, WfVal.obj current_data) :: acc)
            | .error e => .error e)
        else ([(req, [aid])], .error ("Step " ++ toString i ++ " failed"))
      | .ok [] => ([(req, [aid])], .error ("Step " ++ toString i ++ " failed"))

/-- The `TaskRequest` built for step `i` of a parallel workflow. -/
def mkParRequest (wfId reqId : String) (i : Nat) (step : Step) : TaskRequest :=
  { task_id := wfId ++ "_parallel_" ++ toString i
    requester_id := reqId
    task_type := step.type
    description := step.description
    requirements := step.requirements }

/-- The task list built by `_execute_parallel_workflow` before `gather`. -/
def parDispatches (wfId reqId : String) (agents : List String) (steps : List Step) :
    List Dispatch :=
  steps.enum.map (fun p =>
    (mkParRequest wfId reqId p.1 p.2, [agents.getD (p.1 % agents.length) ""]))

/-- `_execute_parallel_workflow`: dispatch every step, then
`asyncio.gather(*tasks, return_exceptions=True)` — a raise in one branch is
captured as that branch's value, never propagated. -/
def execParallel (rc : Rc) (wfId reqId : String) (agents : List String)
    (steps : List Step) : List Dispatch × Except String (List (String × WfVal)) :=
  if agents.isEmpty then
    if steps.isEmpty then ([], .ok []) else ([], .error zeroDivMsg)
  else
    let tasks := parDispatches wfId reqId agents steps
    let results := tasks.map (fun d => rc d.1 d.2)
    (tasks, .ok (results.enum.map (fun p =>
      ("task_" ++ toString p.1,
        match p.2 with
        | .ok rs => WfVal.responses rs
        | .error e => WfVal.exc e))))

/-- The `TaskRequest` built for step `i` of a pipeline workflow: the previous
output is threaded as `requirements["input_data"]` from the second step on. -/
def mkPipeRequest (wfId reqId : String) (i : Nat) (step : Step)
    (pipelineData : JObj) : TaskRequest :=
  { task_id := wfId ++ "_pipeline_" ++ toString i
    requester_id := reqId
    task_type := step.type
    description := step.description
    requirements :=
      if 0 < i then dictInsert step.requirements "input_data" (JVal.obj pipelineData)
      else step.requirements }

/-- The loop of `_execute_pipeline_workflow`. -/
def execPipeGo (rc : Rc) (wfId reqId : String) (agents : List String) :
    List Step → Nat → JObj → List Dispatch × Except String (List (String × WfVal))
  | [], _, _ => ([], .ok [])
  | step :: rest, i, pipelineData =>
    if agents.isEmpty then ([], .error zeroDivMsg)
    else
      let aid := agents.getD (i % agents.length) ""
      let req := mkPipeRequest wfId reqId i step pipelineData
      match rc req [aid] with
      | .error e => ([(req, [aid])], .error e)
      | .ok (r :: _) =>
        if r.status == "completed" then
          let nextData := r.result.getD []
          let next := execPipeGo rc wfId reqId agents rest (i + 1) nextData
          ((req, [aid]) :: next.1,
            match next.2 with
            | .ok acc => .ok (("pipeline_step_" ++ toString i, WfVal.obj nextData) :: acc)
            | .error e => .error e)
        else ([(req, [aid])], .error ("Pipeline step " ++ toString i ++ " failed"))
      | .ok [] => ([(req, [aid])], .error ("Pipeline step " ++ toString i ++ " failed"))

/-- The coordinator's workflow table `self.workflows` in insertion order. -/
abbrev WorkflowStore := List (String × CollaborationWorkflow)

/-- `self.workflows.get(workflow_id)`. -/
def lookupWf (wfs : WorkflowStore) (wid : String) : Option CollaborationWorkflow :=
  (wfs.find? (fun p => p.1 == wid)).map (·.2)

/-- `CollaborativeAgent.execute_workflow(workflow_id)`: raises `ValueError`
only for an unknown id; otherwise sets the status to `"running"`, picks the
strategy by `workflow.name`, and catches any strategy exception, ending in
`("completed", results)` or `("failed", ⟨"error": str(e)⟩)`.  Returns the
dispatch log alongside.  `runStrategy` is the strategy selection on
`workflow.name` inside the `try` block. -/
def runStrategy (rc : Rc) (reqId : String) (wf : CollaborationWorkflow) :
    List Dispatch × Except String (List (String × WfVal)) :=
  if wf.name == "sequential" then
    execSeqGo rc wf.workflow_id reqId wf.agents wf.steps 0 []
  else if wf.name == "parallel" then
    execParallel rc wf.workflow_id reqId wf.agents wf.steps
  else if wf.name == "pipeline" then
    execPipeGo rc wf.workflow_id reqId wf.agents wf.steps 0 []
  else ([], .ok [])

def execute_workflow (rc : Rc) (reqId : String) (wfs : WorkflowStore)
    (wid : String) :
    List Dispatch × Except String (String × List (String × WfVal)) :=
  match lookupWf wfs wid with
  | none => ([], .error ("Workflow " ++ wid ++ " not found"))
  | some wf =>
    match (runStrategy rc reqId wf).2 with
    | .ok results => ((runStrategy rc reqId wf).1, .ok ("completed", results))
    | .error e =>
      ((runStrategy rc reqId wf).1, .ok ("failed", [("error", WfVal.exc e)]))

/-- Did dispatch `d` come back as a first response with status
`"completed"`?  (The success test of the sequential/pipeline loops.) -/
def stepSucceeds (rc : Rc) (d : Dispatch) : Bool :=
  match rc d.1 d.2 with
  | .ok (r :: _) => r.status == "completed"
  | _ => false

/-- The `current_data` extracted from dispatch `d`'s first response
(`response[0].result or ⟨⟩`). -/
def stepResult (rc : Rc) (d : Dispatch) : JObj :=
  match rc d.1 d.2 with
  | .ok (r :: _) => r.result.getD []
  | _ => []

/-- The result dict a parallel workflow returns: one `task_i` entry per step,
holding either the step's response list or its captured exception. -/
def expectedParResults (rc : Rc) (reqId : String) (wf : CollaborationWorkflow) :
    List (String × WfVal) :=
  wf.steps.enum.map (fun p =>
    ("task_" ++ toString p.1,
      match rc (mkParRequest wf.workflow_id reqId p.1 p.2)
               [wf.agents.getD (p.1 % wf.agents.length) ""] with
      | .ok rs => WfVal.responses rs
      | .error e => WfVal.exc e))

/-- An operation on the coordinator: `create_workflow` (which stores the
workflow before messaging the invitees) or `execute_workflow` run against a
given collaboration environment. -/
inductive WfOp where
  | createWf (wf : CollaborationWorkflow)
  | executeWf (wid : String) (rc : Rc)

/-- `self.workflows[k] = wf`: dict assignment, overwriting in place. -/
def storeSet (wfs : WorkflowStore) (k : String) (wf : CollaborationWorkflow) :
    WorkflowStore :=
  if wfs.any (fun p => p.1 == k) then
    wfs.map (fun p => if p.1 == k then (k, wf) else p)
  else wfs ++ [(k, wf)]

/-- `workflow.status = st` on the stored workflow object. -/
def storeSetStatus (wfs : WorkflowStore) (wid st : String) : WorkflowStore :=
  wfs.map (fun p => if p.1 == wid then (p.1, { p.2 with status := st }) else p)

/-- Is a workflow with this id stored? -/
def hasWf (wfs : WorkflowStore) (wid : String) : Bool :=
  wfs.any (fun p => p.1 == wid)

/-- Apply one operation; the second component lists the `status` values
written, in order, as `(workflow_id, status)` events.  `create_workflow`
stores the workflow as given (its `status` field untouched);
`execute_workflow` on a known id writes `"running"` and then the terminal
status; on an unknown id it raises and writes nothing. -/
def applyWfOp (reqId : String) (s : WorkflowStore) :
    WfOp → WorkflowStore × List (String × String)
  | .createWf wf => (storeSet s wf.workflow_id wf, [(wf.workflow_id, wf.status)])
  | .executeWf wid rc =>
    match (execute_workflow rc reqId s wid).2 with
    | .error _ => (s, [])
    | .ok (st, _) => (storeSetStatus s wid st, [(wid, "running"), (wid, st)])

/-- Run a sequence of operations from a store, collecting status events. -/
def runWfOps (reqId : String) : WorkflowStore → List WfOp → List (String × String)
  | _, [] => []
  | s, op :: rest =>
    (applyWfOp reqId s op).2 ++ runWfOps reqId (applyWfOp reqId s op).1 rest

/-- The successive values taken by `workflow.status` for the workflow `wid`
over a run starting from an empty coordinator. -/
def statusTrace (reqId : String) (ops : List WfOp) (wid : String) : List String :=
  ((runWfOps reqId [] ops).filter (fun e => e.1 == wid)).map (·.2)

/-- Terminal workflow statuses. -/
def isTerminal (st : String) : Bool := st == "completed" || st == "failed"

/-- Does a status history regress, i.e. reach a terminal status and later
become `"running"` or `"pending"` again? -/
def regresses : List String → Bool
  | [] => false
  | st :: rest =>
    (isTerminal st && rest.any (fun t => t == "running" || t == "pending")) ||
      regresses rest

/-- Is this operation a `create_workflow` for `wid`? -/
def isCreateOf (wid : String) : WfOp → Bool
  | .createWf wf => wf.workflow_id == wid
  | _ => false

/-- Is this operation an `execute_workflow` for `wid`? -/
def isExecOf (wid : String) : WfOp → Bool
  | .executeWf w _ => w == wid
  | _ => false

/-- JSON-RPC error object (`JsonRpcError` in `json_rpc.py`). -/
structure RpcError where
  code : Int
  message : String
  data : Option JVal := none
deriving Repr

/-- `JsonRpcResponse` from `json_rpc.py`. -/
structure JsonRpcResponse where
  jsonrpc : String := "2.0"
  result : Option JVal := none
  error : Option RpcError := none
  id : Option JVal
deriving Repr

/-- `JsonRpcRequest` from `json_rpc.py`, after pydantic validation.  `id` is
`none` exactly when the incoming `id` member was JSON `null`; an *omitted*
`id` is filled by the `default_factory` with a fresh uuid string. -/
structure JsonRpcRequest where
  jsonrpc : String := "2.0"
  method : String
  params : Option JVal := none
  id : Option JVal
deriving Repr

/-- The semantics of one registered RPC method: applied to the request's
`params` (`None`, a list, or a dict), it returns a value or raises. -/
abbrev MethodImpl := Option JVal → Except String JVal

/-- `self.methods`: the registered method table. -/
abbrev MethodTable := List (String × MethodImpl)

/-- Method lookup (`self.methods.get(name)`). -/
def lookupMethod (methods : MethodTable) (name : String) : Option MethodImpl :=
  (methods.find? (fun p => p.1 == name)).map (·.2)

/-- `JsonRpcRequest(**request_data)`: pydantic validation of a request dict.
Unknown members are ignored; `method` is a required string; `params` must be
absent, `null`, an array or an object; `id` must be absent, `null`, a string
or a number.  An omitted `id` is replaced by the `default_factory` value
`freshId` (a fresh `uuid4` string). -/
def mkJsonRpcRequest (freshId : String) (o : JObj) : Except String JsonRpcRequest := do
  let jsonrpc ← match jLookup o "jsonrpc" with
    | none => Except.ok "2.0"
    | some (.str s) => Except.ok s
    | some _ => Except.error "jsonrpc: Input should be a valid string"
  let method ← match jLookup o "method" with
    | none => Except.error "method: Field required"
    | some (.str s) => Except.ok s
    | some _ => Except.error "method: Input should be a valid string"
  let params ← match jLookup o "params" with
    | none => Except.ok none
    | some .null => Except.ok none
    | some (.arr xs) => Except.ok (some (JVal.arr xs))
    | some (.obj fs) => Except.ok (some (JVal.obj fs))
    | some _ => Except.error "params: Input should be a valid list or dictionary"
  let idv ← match jLookup o "id" with
    | none => Except.ok (some (JVal.str freshId))
    | some .null => Except.ok none
    | some (.str s) => Except.ok (some (JVal.str s))
    | some (.num n) => Except.ok (some (JVal.num n))
    | some _ => Except.error "id: Input should be a valid string or integer"
  Except.ok { jsonrpc := jsonrpc, method := method, params := params, id := idv }

/-- `JsonRpcProcessor._create_error_response`. -/
def errResp (rid : Option JVal) (code : Int) (message : String)
    (data : Option JVal) : JsonRpcResponse :=
  { jsonrpc := "2.0", result := none,
    error := some { code := code, message := message, data := data }, id := rid }

/-- `JsonRpcProcessor._process_single_request` (with the module's empty
middleware list): validation failure → `-32600`; unknown method → `-32601`;
params of a wrong shape → `-32602` (dead after validation); a raise inside
the method → `-32603` keyed by the *raw* `request_data.get('id')`; then no
response when `request.id is None`, else a success response. -/
def processSingle (freshId : String) (methods : MethodTable) (o : JObj) :
    Option JsonRpcResponse :=
  match mkJsonRpcRequest freshId o with
  | .error e =>
    some (errResp (jLookup o "id") (-32600) "Invalid Request" (some (.str e)))
  | .ok req =>
    match lookupMethod methods req.method with
    | none => some (errResp req.id (-32601) "Method not found" (some (.str req.method)))
    | some f =>
      let callIt : Option JVal → Option JsonRpcResponse := fun p =>
        match f p with
        | .error e =>
          some (errResp (jLookup o "id") (-32603) "Internal error" (some (.str e)))
        | .ok v =>
          match req.id with
          | none => none
          | some i =>
            some { jsonrpc := "2.0", result := some v, error := none, id := some i }
      match req.params with
      | none => callIt none
      | some (JVal.arr xs) => callIt (some (JVal.arr xs))
      | some (JVal.obj fs) => callIt (some (JVal.obj fs))
      | some _ =>
        some (errResp req.id (-32602) "Invalid params"
          (some (.str "Params must be array or object")))

/-- A parsed JSON-RPC payload: a single request dict or a batch of them. -/
inductive ParsedReq where
  | one (o : JObj)
  | many (os : List JObj)

/-- Input to `process_request`: raw JSON text, or an already-parsed dict or
batch list. -/
inductive RpcInput where
  | text (s : String)
  | single (o : JObj)
  | batch (os : List JObj)

/-- Output of `process_request`: a single (possibly absent) response dict, or
an array of per-request entries. -/
inductive RpcOutput where
  | single (r : Option JsonRpcResponse)
  | batch (rs : List (Option JsonRpcResponse))
deriving Repr

/-- `JsonRpcProcessor._process_batch`: an empty batch is one `-32600` error;
otherwise every element is processed and its entry appended (a notification
contributes a `None` entry).  `fresh n` is the uuid drawn for element `n`. -/
def processBatch (fresh : Nat → String) (methods : MethodTable)
    (os : List JObj) : RpcOutput :=
  if os.isEmpty then
    .single (some (errResp none (-32600) "Invalid Request" (some (.str "Empty batch"))))
  else
    .batch (os.enum.map (fun p => processSingle (fresh p.1) methods p.2))

/-- `JsonRpcProcessor.process_request`: JSON text is parsed first
(`json.loads`, modelled by the `parse` oracle; a parse failure is the
`-32700` response), then a list is treated as a batch and a dict as a single
request. -/
def process_request (parse : String → Except String ParsedReq)
    (fresh : Nat → String) (methods : MethodTable) : RpcInput → RpcOutput
  | .text s =>
    match parse s with
    | .error e => .single (some (errResp none (-32700) "Parse error" (some (.str e))))
    | .ok (.one o) => .single (processSingle (fresh 0) methods o)
    | .ok (.many os) => processBatch fresh methods os
  | .single o => .single (processSingle (fresh 0) methods o)
  | .batch os => processBatch fresh methods os

/-- The agent registered in the concrete scenario of the spec (§8):
`⟨id:"a1", aliases:["Bob"], keywords:["math"], trust_level:8,
popularity_score:60⟩`. -/
def agentA1 : RegistryAgent :=
  { agent_id := "a1", name := "Agent One", description := "",
    well_known_url := "", base_url := "",
    aliases := ["Bob"], keywords := ["math"], capabilities := [],
    specialty := "algebra tutoring", language := ["English"],
    personality_traits := [], status := "active",
    trust_level := 8, popularity_score := 60 }

/-- A workflow whose name is none of the three strategy names. -/
def wfNoop : CollaborationWorkflow :=
  { workflow_id := "w", name := "noop", description := "",
    agents := ["alice"], steps := [], status := "pending" }

/-- A collaboration environment returning an empty response list. -/
def rcNone : Rc := fun _ _ => .ok []

/-- A concrete workflow step. -/
def stepA : Step :=
  { type := "analyze", description := "Analyze", requirements := [("k", JVal.num 0)] }

/-- A concrete workflow step. -/
def stepB : Step := { type := "review", description := "Review", requirements := [] }

/-- A concrete workflow step. -/
def stepC : Step := { type := "report", description := "Report", requirements := [] }

/-- A two-step sequential workflow. -/
def wfSeq2 : CollaborationWorkflow :=
  { workflow_id := "w", name := "sequential", description := "",
    agents := ["alice"], steps := [stepA, stepB], status := "pending" }

/-- A collaboration environment whose every response is a rejection. -/
def rcReject : Rc := fun _ _ =>
  .ok [{ task_id := "t", agent_id := "alice", status := "rejected" }]

/-- A completed response carrying a result payload. -/
def respDone : TaskResponse :=
  { task_id := "t", agent_id := "alice", status := "completed",
    result := some [("x", JVal.num 1)] }

/-- A three-step parallel workflow on two agents. -/
def wfPar3 : CollaborationWorkflow :=
  { workflow_id := "w", name := "parallel", description := "",
    agents := ["alice", "bob"], steps := [stepA, stepB, stepC],
    status := "pending" }

/-- A two-step parallel workflow with an empty agent list. -/
def wfParEmpty : CollaborationWorkflow :=
  { workflow_id := "w", name := "parallel", description := "",
    agents := [], steps := [stepA, stepB], status := "pending" }

/-- A collaboration environment that raises on the second parallel step and
completes every other dispatch. -/
def rcBoom : Rc := fun req _ =>
  if req.task_id == "w_parallel_1" then .error "boom" else .ok [respDone]

/-- A network oracle: agent `"b"`'s HTTP call raises, agent `"c"` answers
non-200, everyone else returns a completed response. -/
def sendW : SendOracle := fun aid _ =>
  if aid == "b" then .raised "ConnectionError"
  else if aid == "c" then .noResponse
  else .responded respDone

/-- A concrete task request used with `request_collaboration`. -/
def taskT : TaskRequest :=
  { task_id := "t1", requester_id := "me", task_type := "analysis",
    description := "analyze", requirements := [] }

/-- The `ping` method of the default table, always succeeding. -/
def pingImpl : MethodImpl := fun _ => .ok (JVal.obj [("pong", JVal.bool true)])

/-- A method table with just `ping` registered. -/
def demoMethods : MethodTable := [("ping", pingImpl)]

/-- A well-formed `ping` request with `id` 1. -/
def oPing : JObj :=
  [("jsonrpc", JVal.str "2.0"), ("method", JVal.str "ping"), ("id", JVal.num 1)]

/-- A malformed request: the `method` member is missing. -/
def oBad : JObj := [("id", JVal.num 2)]

/-- A well-formed request naming an unregistered method. -/
def oUnknown : JObj := [("method", JVal.str "nope"), ("id", JVal.num 7)]

/-- A `ping` request with the `id` member omitted (a JSON-RPC notification). -/
def oPingNoId : JObj := [("jsonrpc", JVal.str "2.0"), ("method", JVal.str "ping")]

/-- A `ping` request with an explicit `null` id. -/
def oPingNullId : JObj :=
  [("jsonrpc", JVal.str "2.0"), ("method", JVal.str "ping"), ("id", JVal.null)]

/-- A parse oracle on which every text fails to parse. -/
def parseE : String → Except String ParsedReq :=
  fun _ => .error "Expecting value: line 1 column 1 (char 0)"

/-- A fresh-uuid oracle. -/
def freshU : Nat → String := fun n => "uuid-" ++ toString n

theorem sortDescBy_perm {α K : Type} [LinearOrder K] (key : α → K) (l : List α) :
    (sortDescBy key l).Perm l :=
  List.perm_insertionSort _ l

theorem sortDescBy_pairwise {α K : Type} [LinearOrder K] (key : α → K) (l : List α) :
    (sortDescBy key l).Pairwise (keyGe key) :=
  List.sorted_insertionSort _ l

theorem filter_key_orderedInsert {α K : Type} [LinearOrder K] (key : α → K)
    (k : K) (x : α) (l : List α) :
    (List.orderedInsert (keyGe key) x l).filter (fun y => decide (key y = k)) =
      if key x = k then x :: l.filter (fun y => decide (key y = k))
      else l.filter (fun y => decide (key y = k)) := by
  induction l with
  | nil =>
    by_cases hx : key x = k <;> simp [List.orderedInsert, List.filter, hx]
  | cons b t ih =>
    by_cases hr : keyGe key x b
    · rw [List.orderedInsert, if_pos hr]
      by_cases hx : key x = k <;> simp [List.filter, hx]
    · rw [List.orderedInsert, if_neg hr]
      have hbx : key x < key b := lt_of_not_le hr
      by_cases hx : key x = k
      · have hb : ¬ key b = k := by
          intro hbk; exact absurd (hbk ▸ hx ▸ hbx) (lt_irrefl _)
        by_cases hbk : key b = k
        · exact absurd hbk hb
        · simp only [List.filter, hbk, decide_eq_true_eq, if_pos hx] at *
          simp [ih, hx, hbk]
      · simp only [List.filter, decide_eq_true_eq, if_neg hx] at *
        by_cases hbk : key b = k <;> simp [ih, hx, hbk]

/-- Stability of `sortDescBy`: within one key class the original (insertion)
order is preserved. -/
theorem sortDescBy_filter_key {α K : Type} [LinearOrder K] (key : α → K)
    (k : K) (l : List α) :
    (sortDescBy key l).filter (fun y => decide (key y = k)) =
      l.filter (fun y => decide (key y = k)) := by
  induction l with
  | nil => rfl
  | cons x t ih =>
    show (List.orderedInsert (keyGe key) x (sortDescBy key t)).filter _ = _
    rw [filter_key_orderedInsert]
    by_cases hx : key x = k <;> simp [List.filter, hx, ih]

theorem foldl_add_count (c : Int) (p : String → Bool) :
    ∀ (l : List String) (init : Int),
      l.foldl (fun s x => if p x then s + c else s) init = init + c * l.countP p
  | [], init => by simp
  | x :: t, init => by
    by_cases h : p x <;>
      simp [List.foldl_cons, h, foldl_add_count c p t, List.countP_cons] <;> ring

theorem score_formula (a : RegistryAgent) (q : String) :
    score a q =
      3 * (a.keywords.countP (fun kw => pyIn (pyLower kw) (pyLower q)) : Int) +
      5 * (a.aliases.countP (fun al => pyIn (pyLower al) (pyLower q)) : Int) +
      (if pyIn (pyLower a.name) (pyLower q) then 4 else 0) +
      (if pyIn (pyLower a.specialty) (pyLower q) then 2 else 0) +
      a.trust_level + a.popularity_score.fdiv 20 := by
  unfold score
  by_cases h1 : pyIn (pyLower a.name) (pyLower q) <;>
    by_cases h2 : pyIn (pyLower a.specialty) (pyLower q) <;>
    simp [foldl_add_count, h1, h2] <;> ring

theorem mem_scoredCandidates {agents : List RegistryAgent} {msg : String}
    {p : RegistryAgent × Int} (h : p ∈ scoredCandidates agents msg) :
    p.1 ∈ agents ∧ p.2 = score p.1 msg ∧ 0 < p.2 := by
  unfold scoredCandidates at h
  rcases List.mem_filter.mp h with ⟨hm, hp⟩
  rcases List.mem_map.mp hm with ⟨a, ha, rfl⟩
  exact ⟨ha, rfl, by simpa using hp⟩

/-- C1: `get_recommended_agents` returns at most `limit` records, only agents
with strictly positive score, ordered by descending score with ties broken by
insertion order (stably), where the score is
`3*keyword_hits + 5*alias_hits + 4*name_hit + 2*specialty_hit + trust_level +
popularity_score // 20`; and in the concrete scenario the agent
`a1 = ⟨aliases ["Bob"], keywords ["math"], trust 8, popularity 60⟩` is
recommended for "I need help with math" with score at least 14. -/
theorem spec_c1_recommend (agents : List RegistryAgent) (msg : String) (limit : Nat) :
    (get_recommended_agents agents msg limit).length ≤ limit
    ∧ (∀ a, a ∈ get_recommended_agents agents msg limit → a ∈ agents ∧ 0 < score a msg)
    ∧ (get_recommended_agents agents msg limit).Pairwise
        (fun a b => score b msg ≤ score a msg)
    ∧ (∀ s : Int, (rankedAgents agents msg).filter (fun p => decide (p.2 = s))
          = (scoredCandidates agents msg).filter (fun p => decide (p.2 = s)))
    ∧ (∀ (a : RegistryAgent) (q : String), score a q =
        3 * (a.keywords.countP (fun kw => pyIn (pyLower kw) (pyLower q)) : Int) +
        5 * (a.aliases.countP (fun al => pyIn (pyLower al) (pyLower q)) : Int) +
        (if pyIn (pyLower a.name) (pyLower q) then 4 else 0) +
        (if pyIn (pyLower a.specialty) (pyLower q) then 2 else 0) +
        a.trust_level + a.popularity_score.fdiv 20)
    ∧ agentA1 ∈ get_recommended_agents [agentA1] "I need help with math" 3
    ∧ 14 ≤ score agentA1 "I need help with math" := by
  refine ⟨?_, ?_, ?_, ?_, score_formula, ?_, ?_⟩
  · have h : (get_recommended_agents agents msg limit).length
        = min limit (rankedAgents agents msg).length := by
      simp [get_recommended_agents]
    omega
  · intro a ha
    unfold get_recommended_agents at ha
    rcases List.mem_map.mp ha with ⟨p, hp, rfl⟩
    have hp2 : p ∈ rankedAgents agents msg := List.take_subset _ _ hp
    have hp3 : p ∈ scoredCandidates agents msg :=
      (sortDescBy_perm (fun p : RegistryAgent × Int => p.2) _).mem_iff.mp hp2
    obtain ⟨h1, h2, h3⟩ := mem_scoredCandidates hp3
    exact ⟨h1, h2 ▸ h3⟩
  · have hP := sortDescBy_pairwise (fun p : RegistryAgent × Int => p.2)
      (scoredCandidates agents msg)
    have hP2 : (rankedAgents agents msg).Pairwise
        (fun p q => score q.1 msg ≤ score p.1 msg) := by
      refine hP.imp_of_mem ?_
      intro p q hp hq h
      have h1 := mem_scoredCandidates
        ((sortDescBy_perm (fun p : RegistryAgent × Int => p.2) _).mem_iff.mp hp)
      have h2 := mem_scoredCandidates
        ((sortDescBy_perm (fun p : RegistryAgent × Int => p.2) _).mem_iff.mp hq)
      rw [← h1.2.1, ← h2.2.1]
      exact h
    have hTake := hP2.sublist (List.take_sublist limit _)
    exact List.pairwise_map.mpr hTake
  · intro s
    exact sortDescBy_filter_key (fun p : RegistryAgent × Int => p.2) s _
  · decide
  · decide

theorem spec_c1_recommend_witness :
    agentA1 ∈ [agentA1] ∧ 0 < score agentA1 "I need help with math" :=
  (spec_c1_recommend [agentA1] "I need help with math" 3).2.1 agentA1 (by decide)

theorem score_no_hits (a : RegistryAgent) (msg : String)
    (h : textualHits a msg = false) :
    score a msg = a.trust_level + a.popularity_score.fdiv 20 := by
  have h' := h
  simp only [textualHits, Bool.or_eq_false_iff, List.any_eq_false] at h'
  obtain ⟨⟨⟨hkw, hal⟩, hname⟩, hspec⟩ := h'
  have h1 : a.keywords.countP (fun kw => pyIn (pyLower kw) (pyLower msg)) = 0 :=
    List.countP_eq_zero.mpr (by intro x hx; simpa using hkw x hx)
  have h2 : a.aliases.countP (fun al => pyIn (pyLower al) (pyLower msg)) = 0 :=
    List.countP_eq_zero.mpr (by intro x hx; simpa using hal x hx)
  rw [score_formula, h1, h2, if_neg (by simp [hname]), if_neg (by simp [hspec])]
  ring

/-- C2 counterexample: with the agent of the concrete scenario registered,
an empty query does *not* yield an empty recommendation list — the agent is
returned on the strength of `trust_level + popularity_score // 20` alone. -/
theorem spec_c2_counterexample :
    get_recommended_agents [agentA1] "" 3 = [agentA1]
    ∧ get_recommended_agents [agentA1] "" 3 ≠ ([] : List RegistryAgent) := by
  constructor
  · decide
  · decide

/-- C2 amended: a query with no keyword/alias/name/specialty hit (an empty
query in particular) raises no error and scores every agent by
`trust_level + popularity_score // 20` alone; the result is empty iff every
agent's base score is non-positive (so typically the full agent list is
returned, not `[]`). -/
theorem spec_c2_no_token_query (agents : List RegistryAgent) (msg : String)
    (limit : Nat) (hhits : ∀ a ∈ agents, textualHits a msg = false)
    (hlim : 0 < limit) :
    (∀ a ∈ agents, score a msg = a.trust_level + a.popularity_score.fdiv 20)
    ∧ (get_recommended_agents agents msg limit = []
        ↔ ∀ a ∈ agents, a.trust_level + a.popularity_score.fdiv 20 ≤ 0) := by
  have hsc : ∀ a ∈ agents, score a msg = a.trust_level + a.popularity_score.fdiv 20 :=
    fun a ha => score_no_hits a msg (hhits a ha)
  refine ⟨hsc, ?_, ?_⟩
  · intro hnil a ha
    by_contra hpos
    have hpos' : 0 < a.trust_level + a.popularity_score.fdiv 20 := by omega
    have hmem : (a, score a msg) ∈ scoredCandidates agents msg := by
      unfold scoredCandidates
      refine List.mem_filter.mpr ⟨List.mem_map.mpr ⟨a, ha, rfl⟩, ?_⟩
      simp only [decide_eq_true_eq, hsc a ha]
      exact hpos'
    have hmem2 : (a, score a msg) ∈ rankedAgents agents msg :=
      (sortDescBy_perm (fun p : RegistryAgent × Int => p.2) _).mem_iff.mpr hmem
    unfold get_recommended_agents at hnil
    rw [List.map_eq_nil_iff, List.take_eq_nil_iff] at hnil
    rcases hnil with h0 | h0
    · omega
    · rw [h0] at hmem2
      exact absurd hmem2 (List.not_mem_nil _)
  · intro hall
    unfold get_recommended_agents
    rw [List.map_eq_nil_iff, List.take_eq_nil_iff]
    right
    have hc : scoredCandidates agents msg = [] := by
      unfold scoredCandidates
      rw [List.filter_eq_nil_iff]
      intro p hp
      rcases List.mem_map.mp hp with ⟨a, ha, rfl⟩
      simp only [decide_eq_true_eq, hsc a ha, not_lt]
      exact hall a ha
    unfold rankedAgents
    rw [hc]
    rfl

theorem spec_c2_no_token_query_witness :
    (∀ a ∈ [agentA1], score a "zzz" = a.trust_level + a.popularity_score.fdiv 20)
    ∧ (get_recommended_agents [agentA1] "zzz" 3 = []
        ↔ ∀ a ∈ [agentA1], a.trust_level + a.popularity_score.fdiv 20 ≤ 0) :=
  spec_c2_no_token_query [agentA1] "zzz" 3 (by decide) (by decide)

/-- C9: `get_all_agents(active_only=True)` returns exactly the records whose
status is `"active"` (as a permutation of the filtered registration list),
sorted descending by the lexicographic pair
`(trust_level, popularity_score)`. -/
theorem spec_c9_get_all_agents (agents : List RegistryAgent) :
    (get_all_agents agents true).Perm (agents.filter (fun a => a.status == "active"))
    ∧ (get_all_agents agents true).Pairwise (fun a b =>
        b.trust_level < a.trust_level ∨
          (b.trust_level = a.trust_level ∧ b.popularity_score ≤ a.popularity_score))
    ∧ (∀ a, a ∈ get_all_agents agents true ↔ a ∈ agents ∧ a.status = "active") := by
  have hdef : get_all_agents agents true =
      sortDescBy (fun a : RegistryAgent => toLex (a.trust_level, a.popularity_score))
        (agents.filter (fun a => a.status == "active")) := rfl
  have hperm : (get_all_agents agents true).Perm
      (agents.filter (fun a => a.status == "active")) := by
    rw [hdef]
    exact sortDescBy_perm _ _
  refine ⟨hperm, ?_, ?_⟩
  · have hP := sortDescBy_pairwise
      (fun a : RegistryAgent => toLex (a.trust_level, a.popularity_score))
      (agents.filter (fun a => a.status == "active"))
    rw [hdef]
    refine hP.imp ?_
    intro a b h
    exact (Prod.Lex.le_iff _ _).mp h
  · intro a
    rw [hperm.mem_iff, List.mem_filter]
    simp [beq_iff_eq]

theorem spec_c9_get_all_agents_witness :
    agentA1 ∈ get_all_agents [agentA1] true ↔
      agentA1 ∈ [agentA1] ∧ agentA1.status = "active" :=
  (spec_c9_get_all_agents [agentA1]).2.2 agentA1

theorem collab_foldl (send : SendOracle) (task : TaskRequest) :
    ∀ (targets : List String) (acc : List TaskResponse),
      targets.foldl (fun responses aid =>
        match send aid task with
        | .responded r => responses ++ [r]
        | _ => responses) acc
      = acc ++ targets.filterMap (fun aid => respOf (send aid task))
  | [], acc => by simp
  | aid :: t, acc => by
    cases h : send aid task <;>
      simp [List.foldl_cons, h, collab_foldl send task t, respOf,
        List.filterMap_cons]

/-- C8: dispatching a `TaskRequest` to a given (non-empty) list of target
agents never raises, and returns exactly the well-formed responses of the
agents whose HTTP calls succeeded, in target order: an agent whose send
raised or came back non-200/falsy contributes nothing, without aborting the
rest of the batch. -/
theorem spec_c8_request_collaboration (send : SendOracle)
    (findSuitable : Except String (List String)) (task : TaskRequest)
    (targets : List String) (h : targets ≠ []) :
    request_collaboration send findSuitable task targets
      = .ok (targets.filterMap (fun aid => respOf (send aid task))) := by
  have hempty : targets.isEmpty = false := by
    cases targets with
    | nil => exact absurd rfl h
    | cons a t => rfl
  have hred : request_collaboration send findSuitable task targets =
      .ok (targets.foldl (fun responses aid =>
        match send aid task with
        | .responded r => responses ++ [r]
        | _ => responses) []) := by
    unfold request_collaboration
    rw [hempty]
    rfl
  rw [hred, collab_foldl send task targets []]
  simp

theorem spec_c8_request_collaboration_witness :
    request_collaboration sendW (.ok []) taskT ["a", "b", "c"]
        = .ok (["a", "b", "c"].filterMap (fun aid => respOf (sendW aid taskT)))
    ∧ ["a", "b", "c"].filterMap (fun aid => respOf (sendW aid taskT)) = [respDone] :=
  ⟨spec_c8_request_collaboration sendW (.ok []) taskT ["a", "b", "c"] (by decide),
    rfl⟩

/-- C10: `execute_workflow` raises only for an unregistered workflow id; a
registered workflow whose name selects none of the three strategies
dispatches nothing, returns an empty result map, and ends `"completed"`;
and for any registered workflow the call returns normally. -/
theorem spec_c10_unknown_strategy (rc : Rc) (reqId : String)
    (wfs : WorkflowStore) (wid : String) :
    (lookupWf wfs wid = none →
      execute_workflow rc reqId wfs wid
        = ([], .error ("Workflow " ++ wid ++ " not found")))
    ∧ (∀ wf, lookupWf wfs wid = some wf →
        wf.name ≠ "sequential" → wf.name ≠ "parallel" → wf.name ≠ "pipeline" →
        execute_workflow rc reqId wfs wid = ([], .ok ("completed", [])))
    ∧ (∀ wf, lookupWf wfs wid = some wf →
        ∃ v, (execute_workflow rc reqId wfs wid).2 = .ok v) := by
  refine ⟨?_, ?_, ?_⟩
  · intro h
    unfold execute_workflow
    rw [h]
  · intro wf h h1 h2 h3
    have e1 : (wf.name == "sequential") = false := beq_eq_false_iff_ne.mpr h1
    have e2 : (wf.name == "parallel") = false := beq_eq_false_iff_ne.mpr h2
    have e3 : (wf.name == "pipeline") = false := beq_eq_false_iff_ne.mpr h3
    have hstrat : runStrategy rc reqId wf = ([], .ok []) := by
      unfold runStrategy
      rw [e1, e2, e3]
      rfl
    unfold execute_workflow
    simp only [h, hstrat]
  · intro wf h
    unfold execute_workflow
    simp only [h]
    cases hrun : (runStrategy rc reqId wf).2 with
    | error e => exact ⟨("failed", [("error", WfVal.exc e)]), by simp [hrun]⟩
    | ok results => exact ⟨("completed", results), by simp [hrun]⟩

theorem spec_c10_unknown_strategy_witness :
    execute_workflow rcNone "me" [] "w"
        = ([], .error ("Workflow " ++ "w" ++ " not found"))
    ∧ execute_workflow rcNone "me" [("w", wfNoop)] "w"
        = ([], .ok ("completed", [])) :=
  ⟨(spec_c10_unknown_strategy rcNone "me" [] "w").1 rfl,
    (spec_c10_unknown_strategy rcNone "me" [("w", wfNoop)] "w").2.1 wfNoop rfl
      (by decide) (by decide) (by decide)⟩

theorem hasWf_true_iff (s : WorkflowStore) (wid : String) :
    hasWf s wid = true ↔ ∃ p ∈ s, p.1 = wid := by
  unfold hasWf
  simp [List.any_eq_true]

theorem hasWf_storeSet_self (s : WorkflowStore) (k : String)
    (wf : CollaborationWorkflow) :
    hasWf (storeSet s k wf) k = true := by
  rw [hasWf_true_iff]
  unfold storeSet
  by_cases h : s.any (fun p => p.1 == k)
  · rw [if_pos h]
    obtain ⟨q, hq, hqk⟩ := List.any_eq_true.mp h
    refine ⟨(k, wf), ?_, rfl⟩
    have hmapped : (fun p : String × CollaborationWorkflow =>
        if p.1 == k then (k, wf) else p) q = (k, wf) := by
      simp [hqk]
    exact List.mem_map.mpr ⟨q, hq, hmapped⟩
  · rw [if_neg h]
    exact ⟨(k, wf), by simp, rfl⟩

theorem hasWf_storeSet_other (s : WorkflowStore) (k : String)
    (wf : CollaborationWorkflow) (wid : String) (hne : k ≠ wid) :
    hasWf (storeSet s k wf) wid = hasWf s wid := by
  rw [Bool.eq_iff_iff, hasWf_true_iff, hasWf_true_iff]
  unfold storeSet
  by_cases h : s.any (fun p => p.1 == k)
  · rw [if_pos h]
    constructor
    · rintro ⟨p, hp, hpwid⟩
      rcases List.mem_map.mp hp with ⟨q, hq, rfl⟩
      by_cases hk : (q.1 == k) = true
      · rw [if_pos hk] at hpwid
        exact absurd hpwid hne
      · rw [if_neg hk] at hpwid
        exact ⟨q, hq, hpwid⟩
    · rintro ⟨q, hq, hqwid⟩
      have hk : (q.1 == k) = false := by
        rw [beq_eq_false_iff_ne, hqwid]
        exact fun hh => hne hh.symm
      refine ⟨q, ?_, hqwid⟩
      have hmapped : (fun p : String × CollaborationWorkflow =>
          if p.1 == k then (k, wf) else p) q = q := by
        simp [hk]
      exact List.mem_map.mpr ⟨q, hq, hmapped⟩
  · rw [if_neg h]
    constructor
    · rintro ⟨p, hp, hpwid⟩
      rcases List.mem_append.mp hp with hp1 | hp1
      · exact ⟨p, hp1, hpwid⟩
      · rw [List.mem_singleton.mp hp1] at hpwid
        exact absurd hpwid hne
    · rintro ⟨q, hq, hqwid⟩
      exact ⟨q, List.mem_append.mpr (.inl hq), hqwid⟩

theorem any_fst_map
    (f : String × CollaborationWorkflow → String × CollaborationWorkflow)
    (hf : ∀ p, (f p).1 = p.1) (l : WorkflowStore) (wid : String) :
    (l.map f).any (fun p => p.1 == wid) = l.any (fun p => p.1 == wid) := by
  induction l with
  | nil => rfl
  | cons p t ih => simp [List.any_cons, hf p, ih]

theorem hasWf_storeSetStatus (s : WorkflowStore) (w st wid : String) :
    hasWf (storeSetStatus s w st) wid = hasWf s wid := by
  unfold hasWf storeSetStatus
  apply any_fst_map
  intro p
  by_cases h : (p.1 == w) = true <;> simp [h]

theorem lookupWf_none_of_not_hasWf {s : WorkflowStore} {wid : String}
    (h : hasWf s wid = false) : lookupWf s wid = none := by
  unfold lookupWf
  rw [List.find?_eq_none.mpr ?_]
  · rfl
  · intro x hx
    have := List.any_eq_false.mp h x hx
    simpa using this

theorem lookupWf_some_of_hasWf {s : WorkflowStore} {wid : String}
    (h : hasWf s wid = true) : ∃ wf, lookupWf s wid = some wf := by
  unfold hasWf at h
  have h2 : ((s.find? (fun p => p.1 == wid)).isSome) = true :=
    List.find?_isSome.mpr (List.any_eq_true.mp h)
  obtain ⟨p, hp⟩ := Option.isSome_iff_exists.mp h2
  refine ⟨p.2, ?_⟩
  unfold lookupWf
  rw [hp]
  rfl

theorem execute_workflow_ok {rc : Rc} {reqId : String} {s : WorkflowStore}
    {wid : String} {wf : CollaborationWorkflow}
    (hl : lookupWf s wid = some wf) :
    ∃ st res, (execute_workflow rc reqId s wid).2 = .ok (st, res) := by
  unfold execute_workflow
  simp only [hl]
  cases hrun : (runStrategy rc reqId wf).2 with
  | error e => exact ⟨"failed", [("error", WfVal.exc e)], by simp [hrun]⟩
  | ok results => exact ⟨"completed", results, by simp [hrun]⟩

theorem regresses_cons_false {st : String} {t : List String}
    (h1 : isTerminal st = false) (h2 : regresses t = false) :
    regresses (st :: t) = false := by
  simp [regresses, h1, h2]

theorem wfTrace_untouched (reqId wid : String) :
    ∀ (ops : List WfOp) (s : WorkflowStore),
      ops.countP (isCreateOf wid) = 0 → ops.countP (isExecOf wid) = 0 →
      (runWfOps reqId s ops).filter (fun e => e.1 == wid) = []
  | [], _ => fun _ _ => rfl
  | op :: rest, s => by
    intro hc he
    rw [List.countP_cons] at hc he
    have hcop : isCreateOf wid op = false := by
      cases hcop : isCreateOf wid op with
      | false => rfl
      | true => simp [hcop] at hc
    have heop : isExecOf wid op = false := by
      cases heop : isExecOf wid op with
      | false => rfl
      | true => simp [heop] at he
    have hc0 : rest.countP (isCreateOf wid) = 0 := by
      rw [hcop] at hc
      simpa using hc
    have he0 : rest.countP (isExecOf wid) = 0 := by
      rw [heop] at he
      simpa using he
    cases op with
    | createWf wf =>
      have hne : (wf.workflow_id == wid) = false := by simpa [isCreateOf] using hcop
      simp only [runWfOps, applyWfOp, List.filter_append]
      rw [wfTrace_untouched reqId wid rest (storeSet s wf.workflow_id wf) hc0 he0]
      simp [hne]
    | executeWf w rc =>
      have hne : (w == wid) = false := by simpa [isExecOf] using heop
      cases hE : (execute_workflow rc reqId s w).2 with
      | error e =>
        simp only [runWfOps, applyWfOp, hE, List.filter_append]
        rw [wfTrace_untouched reqId wid rest s hc0 he0]
        simp
      | ok p =>
        obtain ⟨st, res⟩ := p
        simp only [runWfOps, applyWfOp, hE, List.filter_append]
        rw [wfTrace_untouched reqId wid rest (storeSetStatus s w st) hc0 he0]
        simp [hne]

theorem wfTrace_present (reqId wid : String) :
    ∀ (ops : List WfOp) (s : WorkflowStore),
      hasWf s wid = true →
      ops.countP (isCreateOf wid) = 0 → ops.countP (isExecOf wid) ≤ 1 →
      regresses (((runWfOps reqId s ops).filter (fun e => e.1 == wid)).map (·.2))
        = false
  | [], _ => fun _ _ _ => rfl
  | op :: rest, s => by
    intro hs hc he
    rw [List.countP_cons] at hc he
    have hcop : isCreateOf wid op = false := by
      cases hcop : isCreateOf wid op with
      | false => rfl
      | true => simp [hcop] at hc
    have hc0 : rest.countP (isCreateOf wid) = 0 := by
      rw [hcop] at hc
      simpa using hc
    cases op with
    | createWf wf =>
      have hne : (wf.workflow_id == wid) = false := by simpa [isCreateOf] using hcop
      have hne' : wf.workflow_id ≠ wid := beq_eq_false_iff_ne.mp hne
      have hs' : hasWf (storeSet s wf.workflow_id wf) wid = true := by
        rw [hasWf_storeSet_other s wf.workflow_id wf wid hne']
        exact hs
      have he0 : rest.countP (isExecOf wid) ≤ 1 := by omega
      simp only [runWfOps, applyWfOp, List.filter_append, List.map_append]
      rw [List.filter_cons_of_neg (by simp [hne])]
      simp only [List.filter_nil, List.map_nil, List.nil_append]
      exact wfTrace_present reqId wid rest (storeSet s wf.workflow_id wf) hs' hc0 he0
    | executeWf w rc =>
      by_cases hw : (w == wid) = true
      · have hwid : w = wid := beq_iff_eq.mp hw
        subst hwid
        have he0 : rest.countP (isExecOf w) = 0 := by
          have h1 : isExecOf w (WfOp.executeWf w rc) = true := by simp [isExecOf]
          rw [h1, show (if (true = true) then 1 else 0) = 1 from rfl] at he
          omega
        obtain ⟨wf', hl⟩ := lookupWf_some_of_hasWf hs
        obtain ⟨st, res, hE⟩ := @execute_workflow_ok rc reqId s w wf' hl
        simp only [runWfOps, applyWfOp, hE, List.filter_append, List.map_append]
        rw [wfTrace_untouched reqId w rest (storeSetStatus s w st) hc0 he0]
        simp [regresses, isTerminal]
      · have hne : (w == wid) = false := by simpa using hw
        have he0 : rest.countP (isExecOf wid) ≤ 1 := by
          have h1 : isExecOf wid (WfOp.executeWf w rc) = false := by
            simp [isExecOf, hne]
          rw [h1, show (if (false = true) then 1 else 0) = 0 from rfl] at he
          omega
        cases hE : (execute_workflow rc reqId s w).2 with
        | error e =>
          simp only [runWfOps, applyWfOp, hE, List.filter_append, List.map_append]
          simp only [List.filter_nil, List.map_nil, List.nil_append]
          exact wfTrace_present reqId wid rest s hs hc0 he0
        | ok p =>
          obtain ⟨st, res⟩ := p
          have hs' : hasWf (storeSetStatus s w st) wid = true := by
            rw [hasWf_storeSetStatus]
            exact hs
          simp only [runWfOps, applyWfOp, hE, List.filter_append, List.map_append]
          rw [List.filter_cons_of_neg (by simp [hne]),
            List.filter_cons_of_neg (by simp [hne])]
          simp only [List.filter_nil, List.map_nil, List.nil_append]
          exact wfTrace_present reqId wid rest (storeSetStatus s w st) hs' hc0 he0

theorem wfTrace_fresh (reqId wid : String) :
    ∀ (ops : List WfOp) (s : WorkflowStore),
      hasWf s wid = false →
      ops.countP (isCreateOf wid) ≤ 1 → ops.countP (isExecOf wid) ≤ 1 →
      (∀ wf, WfOp.createWf wf ∈ ops → wf.workflow_id = wid →
        wf.status = "pending") →
      regresses (((runWfOps reqId s ops).filter (fun e => e.1 == wid)).map (·.2))
        = false
  | [], _ => fun _ _ _ _ => rfl
  | op :: rest, s => by
    intro hs hc he hp
    rw [List.countP_cons] at hc he
    have hp0 : ∀ wf, WfOp.createWf wf ∈ rest → wf.workflow_id = wid →
        wf.status = "pending" :=
      fun wf hm => hp wf (List.mem_cons_of_mem _ hm)
    cases op with
    | createWf wf =>
      by_cases hw : (wf.workflow_id == wid) = true
      · have hwid : wf.workflow_id = wid := beq_iff_eq.mp hw
        have hpend : wf.status = "pending" :=
          hp wf (List.mem_cons_self _ _) hwid
        have hc0 : rest.countP (isCreateOf wid) = 0 := by
          have h1 : isCreateOf wid (WfOp.createWf wf) = true := by
            simp [isCreateOf, hw]
          rw [h1, show (if (true = true) then 1 else 0) = 1 from rfl] at hc
          omega
        have he0 : rest.countP (isExecOf wid) ≤ 1 := by omega
        have hs' : hasWf (storeSet s wf.workflow_id wf) wid = true := by
          rw [hwid]
          exact hasWf_storeSet_self s wid wf
        simp only [runWfOps, applyWfOp, List.filter_append, List.map_append]
        rw [List.filter_cons_of_pos (by simp [hw]), List.filter_nil]
        simp only [List.map_cons, List.map_nil, List.nil_append,
          List.cons_append, List.nil_append]
        refine regresses_cons_false (by rw [hpend]; rfl) ?_
        exact wfTrace_present reqId wid rest (storeSet s wf.workflow_id wf)
          hs' hc0 he0
      · have hne : (wf.workflow_id == wid) = false := by simpa using hw
        have hne' : wf.workflow_id ≠ wid := beq_eq_false_iff_ne.mp hne
        have hc0 : rest.countP (isCreateOf wid) ≤ 1 := by
          have h1 : isCreateOf wid (WfOp.createWf wf) = false := by
            simp [isCreateOf, hne]
          rw [h1, show (if (false = true) then 1 else 0) = 0 from rfl] at hc
          omega
        have he0 : rest.countP (isExecOf wid) ≤ 1 := by omega
        have hs' : hasWf (storeSet s wf.workflow_id wf) wid = false := by
          rw [hasWf_storeSet_other s wf.workflow_id wf wid hne']
          exact hs
        simp only [runWfOps, applyWfOp, List.filter_append, List.map_append]
        rw [List.filter_cons_of_neg (by simp [hne]), List.filter_nil]
        simp only [List.map_nil, List.nil_append]
        exact wfTrace_fresh reqId wid rest (storeSet s wf.workflow_id wf)
          hs' hc0 he0 hp0
    | executeWf w rc =>
      by_cases hw : (w == wid) = true
      · have hwid : w = wid := beq_iff_eq.mp hw
        subst hwid
        have he0 : rest.countP (isExecOf w) ≤ 1 := by
          have h1 : isExecOf w (WfOp.executeWf w rc) = true := by simp [isExecOf]
          rw [h1, show (if (true = true) then 1 else 0) = 1 from rfl] at he
          omega
        have hc0 : rest.countP (isCreateOf w) ≤ 1 := by omega
        have hE : (execute_workflow rc reqId s w).2
            = .error ("Workflow " ++ w ++ " not found") := by
          unfold execute_workflow
          rw [lookupWf_none_of_not_hasWf hs]
        simp only [runWfOps, applyWfOp, hE, List.filter_nil, List.map_nil,
          List.nil_append]
        exact wfTrace_fresh reqId w rest s hs hc0 he0 hp0
      · have hne : (w == wid) = false := by simpa using hw
        have he0 : rest.countP (isExecOf wid) ≤ 1 := by
          have h1 : isExecOf wid (WfOp.executeWf w rc) = false := by
            simp [isExecOf, hne]
          rw [h1, show (if (false = true) then 1 else 0) = 0 from rfl] at he
          omega
        have hc0 : rest.countP (isCreateOf wid) ≤ 1 := by omega
        cases hE : (execute_workflow rc reqId s w).2 with
        | error e =>
          simp only [runWfOps, applyWfOp, hE, List.filter_nil, List.map_nil,
            List.nil_append]
          exact wfTrace_fresh reqId wid rest s hs hc0 he0 hp0
        | ok p =>
          obtain ⟨st, res⟩ := p
          have hs' : hasWf (storeSetStatus s w st) wid = false := by
            rw [hasWf_storeSetStatus]
            exact hs
          simp only [runWfOps, applyWfOp, hE, List.filter_append,
            List.map_append]
          rw [List.filter_cons_of_neg (by simp [hne]),
            List.filter_cons_of_neg (by simp [hne]), List.filter_nil]
          simp only [List.map_nil, List.nil_append]
          exact wfTrace_fresh reqId wid rest (storeSetStatus s w st)
            hs' hc0 he0 hp0

/-- C3 counterexample: a workflow created as pending, executed to completion
and then executed again has status history
pending → running → completed → running → completed: `execute_workflow` on
an already-terminal workflow sets its status back to `"running"`, a
regression. -/
theorem spec_c3_counterexample :
    statusTrace "me" [WfOp.createWf wfNoop, WfOp.executeWf "w" rcNone,
        WfOp.executeWf "w" rcNone] "w"
      = ["pending", "running", "completed", "running", "completed"]
    ∧ regresses (statusTrace "me" [WfOp.createWf wfNoop,
        WfOp.executeWf "w" rcNone, WfOp.executeWf "w" rcNone] "w") = true :=
  ⟨rfl, rfl⟩

/-- C3 amended: the workflow status follows
`pending → running → ⟨completed, failed⟩` and never regresses, *provided*
each workflow id is created at most once (with its initial status
`"pending"`) and executed at most once; re-invoking `execute_workflow` on an
already-terminal workflow resets its status to `"running"`. -/
theorem spec_c3_no_regression (reqId wid : String) (ops : List WfOp)
    (hc : ops.countP (isCreateOf wid) ≤ 1)
    (he : ops.countP (isExecOf wid) ≤ 1)
    (hp : ∀ wf, WfOp.createWf wf ∈ ops → wf.workflow_id = wid →
      wf.status = "pending") :
    regresses (statusTrace reqId ops wid) = false := by
  unfold statusTrace
  exact wfTrace_fresh reqId wid ops [] rfl hc he hp

theorem spec_c3_no_regression_witness :
    regresses (statusTrace "me" [WfOp.createWf wfNoop, WfOp.executeWf "w" rcNone]
      "w") = false :=
  spec_c3_no_regression "me" "w" [WfOp.createWf wfNoop, WfOp.executeWf "w" rcNone]
    (by decide) (by decide)
    (by
      intro wf hm _
      rcases List.mem_cons.mp hm with h | h
      · cases h
        rfl
      · rcases List.mem_cons.mp h with h2 | h2
        · exact absurd h2 (by simp)
        · exact absurd h2 (List.not_mem_nil _))

theorem execSeqGo_nil (rc : Rc) (wfId reqId : String) (agents : List String)
    (i : Nat) (current : JObj) :
    execSeqGo rc wfId reqId agents [] i current = ([], .ok []) := rfl

theorem execSeqGo_cons_err (rc : Rc) (wfId reqId : String)
    (agents : List String) (step : Step) (rest : List Step) (i : Nat)
    (current : JObj) (e : String) (hag : agents.isEmpty = false)
    (hrc : rc (mkSeqRequest wfId reqId i step current)
      [agents.getD (i % agents.length) ""] = .error e) :
    execSeqGo rc wfId reqId agents (step :: rest) i current
      = ([(mkSeqRequest wfId reqId i step current,
          [agents.getD (i % agents.length) ""])], .error e) := by
  rw [List.getD_eq_getElem?_getD] at hrc
  simp [execSeqGo, hag, hrc]

theorem execSeqGo_cons_empty (rc : Rc) (wfId reqId : String)
    (agents : List String) (step : Step) (rest : List Step) (i : Nat)
    (current : JObj) (hag : agents.isEmpty = false)
    (hrc : rc (mkSeqRequest wfId reqId i step current)
      [agents.getD (i % agents.length) ""] = .ok []) :
    execSeqGo rc wfId reqId agents (step :: rest) i current
      = ([(mkSeqRequest wfId reqId i step current,
          [agents.getD (i % agents.length) ""])],
         .error ("Step " ++ toString i ++ " failed")) := by
  rw [List.getD_eq_getElem?_getD] at hrc
  simp [execSeqGo, hag, hrc]

theorem execSeqGo_cons_notdone (rc : Rc) (wfId reqId : String)
    (agents : List String) (step : Step) (rest : List Step) (i : Nat)
    (current : JObj) (r : TaskResponse) (tl : List TaskResponse)
    (hag : agents.isEmpty = false)
    (hrc : rc (mkSeqRequest wfId reqId i step current)
      [agents.getD (i % agents.length) ""] = .ok (r :: tl))
    (hst : (r.status == "completed") = false) :
    execSeqGo rc wfId reqId agents (step :: rest) i current
      = ([(mkSeqRequest wfId reqId i step current,
          [agents.getD (i % agents.length) ""])],
         .error ("Step " ++ toString i ++ " failed")) := by
  rw [List.getD_eq_getElem?_getD] at hrc
  simp [execSeqGo, hag, hrc, hst]

theorem execSeqGo_cons_ok (rc : Rc) (wfId reqId : String)
    (agents : List String) (step : Step) (rest : List Step) (i : Nat)
    (current : JObj) (r : TaskResponse) (tl : List TaskResponse)
    (hag : agents.isEmpty = false)
    (hrc : rc (mkSeqRequest wfId reqId i step current)
      [agents.getD (i % agents.length) ""] = .ok (r :: tl))
    (hst : (r.status == "completed") = true) :
    execSeqGo rc wfId reqId agents (step :: rest) i current
      = ((mkSeqRequest wfId reqId i step current,
          [agents.getD (i % agents.length) ""])
            :: (execSeqGo rc wfId reqId agents rest (i + 1)
                  (r.result.getD [])).1,
         match (execSeqGo rc wfId reqId agents rest (i + 1)
             (r.result.getD [])).2 with
         | .ok acc =>
           .ok (("step_" ++ toString i, WfVal.obj (r.result.getD [])) :: acc)
         | .error e => .error e) := by
  rw [List.getD_eq_getElem?_getD] at hrc
  simp [execSeqGo, hag, hrc, hst]

theorem execSeqGo_zero_div (rc : Rc) (wfId reqId : String)
    (agents : List String) (step : Step) (rest : List Step) (i : Nat)
    (current : JObj) (hag : agents.isEmpty = true) :
    execSeqGo rc wfId reqId agents (step :: rest) i current
      = ([], .error zeroDivMsg) := by
  simp [execSeqGo, hag]

theorem execSeqGo_targets (rc : Rc) (wfId reqId : String)
    (agents : List String) :
    ∀ (steps : List Step) (i : Nat) (current : JObj) (j : Nat) (d : Dispatch),
      (execSeqGo rc wfId reqId agents steps i current).1[j]? = some d →
      d.2 = [agents.getD ((i + j) % agents.length) ""]
  | [], i, current, j, d => by
    intro h
    rw [execSeqGo_nil] at h
    simp at h
  | step :: rest, i, current, j, d => by
    intro h
    by_cases hag : agents.isEmpty = true
    · rw [execSeqGo_zero_div rc wfId reqId agents step rest i current hag] at h
      simp at h
    · have hag' : agents.isEmpty = false := by simpa using hag
      cases hrc : rc (mkSeqRequest wfId reqId i step current)
          [agents.getD (i % agents.length) ""] with
      | error e =>
        rw [execSeqGo_cons_err rc wfId reqId agents step rest i current e
          hag' hrc] at h
        cases j with
        | zero =>
          simp at h
          simp [← h]
        | succ j => simp at h
      | ok rs =>
        cases rs with
        | nil =>
          rw [execSeqGo_cons_empty rc wfId reqId agents step rest i current
            hag' hrc] at h
          cases j with
          | zero =>
            simp at h
            simp [← h]
          | succ j => simp at h
        | cons r tl =>
          by_cases hst : (r.status == "completed") = true
          · rw [execSeqGo_cons_ok rc wfId reqId agents step rest i current r tl
              hag' hrc hst] at h
            cases j with
            | zero =>
              simp at h
              simp [← h]
            | succ j =>
              simp only [List.getElem?_cons_succ] at h
              have ih := execSeqGo_targets rc wfId reqId agents rest (i + 1)
                (r.result.getD []) j d h
              have harith : i + 1 + j = i + (j + 1) := by omega
              rw [harith] at ih
              exact ih
          · have hst' : (r.status == "completed") = false := by simpa using hst
            rw [execSeqGo_cons_notdone rc wfId reqId agents step rest i current
              r tl hag' hrc hst'] at h
            cases j with
            | zero =>
              simp at h
              simp [← h]
            | succ j => simp at h

theorem execSeqGo_stop (rc : Rc) (wfId reqId : String) (agents : List String) :
    ∀ (steps : List Step) (i : Nat) (current : JObj) (j : Nat) (d : Dispatch),
      (execSeqGo rc wfId reqId agents steps i current).1[j]? = some d →
      stepSucceeds rc d = false →
      (∃ e, (execSeqGo rc wfId reqId agents steps i current).2 = .error e)
        ∧ (execSeqGo rc wfId reqId agents steps i current).1.length = j + 1
  | [], i, current, j, d => by
    intro h _
    rw [execSeqGo_nil] at h
    simp at h
  | step :: rest, i, current, j, d => by
    intro h hfail
    by_cases hag : agents.isEmpty = true
    · rw [execSeqGo_zero_div rc wfId reqId agents step rest i current hag] at h
      simp at h
    · have hag' : agents.isEmpty = false := by simpa using hag
      cases hrc : rc (mkSeqRequest wfId reqId i step current)
          [agents.getD (i % agents.length) ""] with
      | error e =>
        have heq := execSeqGo_cons_err rc wfId reqId agents step rest i
          current e hag' hrc
        rw [heq] at h
        cases j with
        | zero => exact ⟨⟨e, by rw [heq]⟩, by simp [heq]⟩
        | succ j => simp at h
      | ok rs =>
        cases rs with
        | nil =>
          have heq := execSeqGo_cons_empty rc wfId reqId agents step rest i
            current hag' hrc
          rw [heq] at h
          cases j with
          | zero =>
            exact ⟨⟨"Step " ++ toString i ++ " failed", by rw [heq]⟩,
              by simp [heq]⟩
          | succ j => simp at h
        | cons r tl =>
          by_cases hst : (r.status == "completed") = true
          · have heq := execSeqGo_cons_ok rc wfId reqId agents step rest i
              current r tl hag' hrc hst
            rw [heq] at h
            cases j with
            | zero =>
              exfalso
              simp only [List.getElem?_cons_zero, Option.some_inj] at h
              have hsucc : stepSucceeds rc d = true := by
                rw [← h]
                unfold stepSucceeds
                rw [hrc]
                exact hst
              rw [hsucc] at hfail
              exact absurd hfail (by simp)
            | succ j =>
              simp only [List.getElem?_cons_succ] at h
              obtain ⟨⟨e, hE⟩, hlen⟩ := execSeqGo_stop rc wfId reqId agents
                rest (i + 1) (r.result.getD []) j d h hfail
              constructor
              · refine ⟨e, ?_⟩
                rw [heq]
                simp [hE]
              · rw [heq]
                simp [hlen]
          · have hst' : (r.status == "completed") = false := by simpa using hst
            have heq := execSeqGo_cons_notdone rc wfId reqId agents step rest i
              current r tl hag' hrc hst'
            rw [heq] at h
            cases j with
            | zero =>
              exact ⟨⟨"Step " ++ toString i ++ " failed", by rw [heq]⟩,
                by simp [heq]⟩
            | succ j => simp at h

theorem execSeqGo_head (rc : Rc) (wfId reqId : String) (agents : List String)
    (steps : List Step) (i : Nat) (current : JObj) (d : Dispatch)
    (h : (execSeqGo rc wfId reqId agents steps i current).1[0]? = some d) :
    ∃ st, steps[0]? = some st
      ∧ d = (mkSeqRequest wfId reqId i st current,
          [agents.getD (i % agents.length) ""]) := by
  cases steps with
  | nil =>
    rw [execSeqGo_nil] at h
    simp at h
  | cons step rest =>
    by_cases hag : agents.isEmpty = true
    · rw [execSeqGo_zero_div rc wfId reqId agents step rest i current hag] at h
      simp at h
    · have hag' : agents.isEmpty = false := by simpa using hag
      refine ⟨step, by simp, ?_⟩
      cases hrc : rc (mkSeqRequest wfId reqId i step current)
          [agents.getD (i % agents.length) ""] with
      | error e =>
        rw [execSeqGo_cons_err rc wfId reqId agents step rest i current e
          hag' hrc] at h
        simpa using h.symm
      | ok rs =>
        cases rs with
        | nil =>
          rw [execSeqGo_cons_empty rc wfId reqId agents step rest i current
            hag' hrc] at h
          simpa using h.symm
        | cons r tl =>
          by_cases hst : (r.status == "completed") = true
          · rw [execSeqGo_cons_ok rc wfId reqId agents step rest i current r tl
              hag' hrc hst] at h
            simpa using h.symm
          · have hst' : (r.status == "completed") = false := by simpa using hst
            rw [execSeqGo_cons_notdone rc wfId reqId agents step rest i current
              r tl hag' hrc hst'] at h
            simpa using h.symm

theorem execSeqGo_merge (rc : Rc) (wfId reqId : String) (agents : List String) :
    ∀ (steps : List Step) (i : Nat) (current : JObj) (j : Nat)
      (d d' : Dispatch),
      (execSeqGo rc wfId reqId agents steps i current).1[j]? = some d →
      (execSeqGo rc wfId reqId agents steps i current).1[j + 1]? = some d' →
      ∃ st, steps[j + 1]? = some st
        ∧ d' = (mkSeqRequest wfId reqId (i + j + 1) st (stepResult rc d),
            [agents.getD ((i + j + 1) % agents.length) ""])
  | [], i, current, j, d, d' => by
    intro h _
    rw [execSeqGo_nil] at h
    simp at h
  | step :: rest, i, current, j, d, d' => by
    intro h h'
    by_cases hag : agents.isEmpty = true
    · rw [execSeqGo_zero_div rc wfId reqId agents step rest i current hag] at h
      simp at h
    · have hag' : agents.isEmpty = false := by simpa using hag
      cases hrc : rc (mkSeqRequest wfId reqId i step current)
          [agents.getD (i % agents.length) ""] with
      | error e =>
        rw [execSeqGo_cons_err rc wfId reqId agents step rest i current e
          hag' hrc] at h'
        simp at h'
      | ok rs =>
        cases rs with
        | nil =>
          rw [execSeqGo_cons_empty rc wfId reqId agents step rest i current
            hag' hrc] at h'
          simp at h'
        | cons r tl =>
          by_cases hst : (r.status == "completed") = true
          · have heq := execSeqGo_cons_ok rc wfId reqId agents step rest i
              current r tl hag' hrc hst
            rw [heq] at h h'
            cases j with
            | zero =>
              simp only [List.getElem?_cons_zero, Option.some_inj] at h
              simp only [List.getElem?_cons_succ] at h'
              obtain ⟨st, hst0, hd'⟩ := execSeqGo_head rc wfId reqId agents
                rest (i + 1) (r.result.getD []) d' h'
              refine ⟨st, by simpa using hst0, ?_⟩
              have hres : stepResult rc d = r.result.getD [] := by
                rw [← h]
                unfold stepResult
                rw [hrc]
              rw [hres]
              simpa using hd'
            | succ j =>
              simp only [List.getElem?_cons_succ] at h h'
              obtain ⟨st, hst0, hd'⟩ := execSeqGo_merge rc wfId reqId agents
                rest (i + 1) (r.result.getD []) j d d' h h'
              refine ⟨st, by simpa using hst0, ?_⟩
              have harith : i + 1 + j + 1 = i + (j + 1) + 1 := by omega
              rw [harith] at hd'
              exact hd'
          · have hst' : (r.status == "completed") = false := by simpa using hst
            rw [execSeqGo_cons_notdone rc wfId reqId agents step rest i current
              r tl hag' hrc hst'] at h'
            simp at h'

/-- C4: in a workflow named `"sequential"`, every dispatched step `i` goes to
`agents[i % len(agents)]`; a step whose first response is missing or not
`"completed"` makes the workflow end `"failed"` with no later step
dispatched; and each dispatched step's requirements are the step's own
requirements merged with the previous step's result. -/
theorem spec_c4_sequential (rc : Rc) (reqId : String) (wfs : WorkflowStore)
    (wid : String) (wf : CollaborationWorkflow)
    (hl : lookupWf wfs wid = some wf) (hname : wf.name = "sequential") :
    (∀ j d, (execute_workflow rc reqId wfs wid).1[j]? = some d →
        d.2 = [wf.agents.getD (j % wf.agents.length) ""])
    ∧ (∀ j d, (execute_workflow rc reqId wfs wid).1[j]? = some d →
        stepSucceeds rc d = false →
        (∃ e, (execute_workflow rc reqId wfs wid).2
            = .ok ("failed", [("error", WfVal.exc e)]))
          ∧ (execute_workflow rc reqId wfs wid).1.length = j + 1)
    ∧ (∀ j d d', (execute_workflow rc reqId wfs wid).1[j]? = some d →
        (execute_workflow rc reqId wfs wid).1[j + 1]? = some d' →
        ∃ st, wf.steps[j + 1]? = some st
          ∧ d'.1.requirements = dictMerge st.requirements (stepResult rc d)) := by
  have hstrat : runStrategy rc reqId wf
      = execSeqGo rc wf.workflow_id reqId wf.agents wf.steps 0 [] := by
    unfold runStrategy
    simp [hname]
  have hlog : (execute_workflow rc reqId wfs wid).1
      = (execSeqGo rc wf.workflow_id reqId wf.agents wf.steps 0 []).1 := by
    unfold execute_workflow
    simp only [hl]
    cases hrun : (runStrategy rc reqId wf).2 <;> simp [← hstrat]
  have hout : ∀ e,
      (execSeqGo rc wf.workflow_id reqId wf.agents wf.steps 0 []).2 = .error e →
      (execute_workflow rc reqId wfs wid).2
        = .ok ("failed", [("error", WfVal.exc e)]) := by
    intro e hE
    unfold execute_workflow
    simp only [hl]
    rw [hstrat, hE]
  refine ⟨?_, ?_, ?_⟩
  · intro j d h
    rw [hlog] at h
    have ht := execSeqGo_targets rc wf.workflow_id reqId wf.agents wf.steps
      0 [] j d h
    simpa using ht
  · intro j d h hfail
    rw [hlog] at h
    obtain ⟨⟨e, hE⟩, hlen⟩ := execSeqGo_stop rc wf.workflow_id reqId wf.agents
      wf.steps 0 [] j d h hfail
    refine ⟨⟨e, hout e hE⟩, ?_⟩
    rw [hlog]
    exact hlen
  · intro j d d' h h'
    rw [hlog] at h h'
    obtain ⟨st, h1, h2⟩ := execSeqGo_merge rc wf.workflow_id reqId wf.agents
      wf.steps 0 [] j d d' h h'
    refine ⟨st, h1, ?_⟩
    rw [h2]
    rfl

theorem spec_c4_sequential_witness :
    (∃ e, (execute_workflow rcReject "me" [("w", wfSeq2)] "w").2
        = .ok ("failed", [("error", WfVal.exc e)]))
    ∧ (execute_workflow rcReject "me" [("w", wfSeq2)] "w").1.length = 0 + 1 :=
  (spec_c4_sequential rcReject "me" [("w", wfSeq2)] "w" wfSeq2 rfl rfl).2.1 0
    (mkSeqRequest "w" "me" 0 stepA [], ["alice"]) rfl rfl

theorem enumFrom_map_pair {α β γ : Type} (f : Nat × α → β) (g : Nat × β → γ) :
    ∀ (l : List α) (n : Nat),
      (List.enumFrom n ((List.enumFrom n l).map f)).map g
        = (List.enumFrom n l).map (fun p => g (p.1, f p))
  | [], _ => rfl
  | x :: t, n => by
    simp only [List.enumFrom_cons, List.map_cons]
    rw [enumFrom_map_pair f g t (n + 1)]

theorem execParallel_eq (rc : Rc) (wfId reqId : String) (agents : List String)
    (steps : List Step) (hag : agents ≠ []) :
    execParallel rc wfId reqId agents steps
      = (parDispatches wfId reqId agents steps,
         .ok ((List.enumFrom 0 steps).map (fun p =>
           ("task_" ++ toString p.1,
             match rc (mkParRequest wfId reqId p.1 p.2)
                 [agents.getD (p.1 % agents.length) ""] with
             | .ok rs => WfVal.responses rs
             | .error e => WfVal.exc e)))) := by
  have hag' : agents.isEmpty = false := by
    cases agents with
    | nil => exact absurd rfl hag
    | cons a t => rfl
  unfold execParallel
  rw [hag']
  simp only [Bool.false_eq_true, if_false]
  refine congrArg (fun z => (parDispatches wfId reqId agents steps, Except.ok z)) ?_
  unfold parDispatches
  simp only [List.map_map, List.enum]
  rw [enumFrom_map_pair]
  simp [Function.comp]

/-- C5 counterexample: a `"parallel"` workflow with an empty agent list and 2
steps does not return 2 step-indexed entries — building the step requests
raises `ZeroDivisionError`, the workflow ends `"failed"`, and the result is
the single `"error"` entry. -/
theorem spec_c5_counterexample :
    (execute_workflow rcNone "me" [("w", wfParEmpty)] "w").2
        = .ok ("failed", [("error", WfVal.exc zeroDivMsg)])
    ∧ wfParEmpty.steps.length = 2
    ∧ [("error", WfVal.exc zeroDivMsg)].length ≠ 2 :=
  ⟨rfl, rfl, by decide⟩

/-- C5 amended: for a `"parallel"` workflow with a non-empty agent list,
`execute_workflow` ends `"completed"` and returns exactly one `task_i` entry
per step, each holding that step's own dispatch outcome — a raised exception
is captured as the entry's value and is propagated neither to the caller nor
to the other steps' entries. -/
theorem spec_c5_parallel (rc : Rc) (reqId : String) (wfs : WorkflowStore)
    (wid : String) (wf : CollaborationWorkflow)
    (hl : lookupWf wfs wid = some wf) (hname : wf.name = "parallel")
    (hag : wf.agents ≠ []) :
    (execute_workflow rc reqId wfs wid).2
        = .ok ("completed", expectedParResults rc reqId wf)
    ∧ (execute_workflow rc reqId wfs wid).1
        = parDispatches wf.workflow_id reqId wf.agents wf.steps
    ∧ (expectedParResults rc reqId wf).length = wf.steps.length
    ∧ (∀ i st, wf.steps[i]? = some st →
        (expectedParResults rc reqId wf)[i]? = some ("task_" ++ toString i,
          match rc (mkParRequest wf.workflow_id reqId i st)
              [wf.agents.getD (i % wf.agents.length) ""] with
          | .ok rs => WfVal.responses rs
          | .error e => WfVal.exc e)) := by
  have hstrat : runStrategy rc reqId wf
      = execParallel rc wf.workflow_id reqId wf.agents wf.steps := by
    unfold runStrategy
    simp [hname]
  have hexp : expectedParResults rc reqId wf
      = (List.enumFrom 0 wf.steps).map (fun p =>
          ("task_" ++ toString p.1,
            match rc (mkParRequest wf.workflow_id reqId p.1 p.2)
                [wf.agents.getD (p.1 % wf.agents.length) ""] with
            | .ok rs => WfVal.responses rs
            | .error e => WfVal.exc e)) := by
    unfold expectedParResults
    simp [List.enum]
  have hpar := execParallel_eq rc wf.workflow_id reqId wf.agents wf.steps hag
  refine ⟨?_, ?_, ?_, ?_⟩
  · unfold execute_workflow
    simp only [hl]
    rw [hstrat, hpar, hexp]
  · unfold execute_workflow
    simp only [hl]
    rw [hstrat, hpar]
  · rw [hexp]
    simp [List.enumFrom_length]
  · intro i st hst
    rw [hexp, List.getElem?_map]
    have henum : (List.enumFrom 0 wf.steps)[i]? = some (i, st) := by
      rw [show List.enumFrom 0 wf.steps = wf.steps.enum from rfl,
        List.getElem?_enum, hst]
      rfl
    rw [henum]
    rfl

theorem spec_c5_parallel_witness :
    (execute_workflow rcBoom "me" [("w", wfPar3)] "w").2
        = .ok ("completed", expectedParResults rcBoom "me" wfPar3)
    ∧ (expectedParResults rcBoom "me" wfPar3).length = wfPar3.steps.length := by
  have h := spec_c5_parallel rcBoom "me" [("w", wfPar3)] "w" wfPar3 rfl rfl
    (by decide)
  exact ⟨h.1, h.2.2.1⟩

/-- C6: the `id` field of `JsonRpcRequest` has a `default_factory` drawing a
fresh uuid, so a request with the `id` member *omitted* (a JSON-RPC
notification) never has `request.id is None` — the notification check in
`_process_single_request` cannot fire, and a response entry (carrying the
generated id) *is* returned, contrary to the spec and to the code's own
"알림 요청인 경우 응답 없음" comment.  Only an explicit `"id": null`
suppresses the response. -/
theorem spec_c6_notification_bug :
    processSingle "uuid-1" demoMethods oPingNoId
        = some { jsonrpc := "2.0",
                 result := some (JVal.obj [("pong", JVal.bool true)]),
                 error := none, id := some (JVal.str "uuid-1") }
    ∧ processSingle "uuid-1" demoMethods oPingNullId = none :=
  ⟨rfl, rfl⟩

theorem except_ok_bind {ε α β : Type} (a : α) (k : α → Except ε β) :
    (Except.ok a >>= k) = k a := rfl

theorem except_error_bind {ε α β : Type} (e : ε) (k : α → Except ε β) :
    ((Except.error e : Except ε α) >>= k) = Except.error e := rfl

theorem mkJsonRpcRequest_no_method (freshId : String) (o : JObj)
    (h : jLookup o "method" = none) :
    ∃ e, mkJsonRpcRequest freshId o = .error e := by
  cases hj : jLookup o "jsonrpc" with
  | none =>
    exact ⟨"method: Field required",
      by unfold mkJsonRpcRequest; rw [hj]; simp [except_ok_bind, except_error_bind, h]⟩
  | some v =>
    cases v with
    | str s =>
      exact ⟨"method: Field required",
        by unfold mkJsonRpcRequest; rw [hj]; simp [except_ok_bind, except_error_bind, h]⟩
    | null =>
      exact ⟨"jsonrpc: Input should be a valid string",
        by unfold mkJsonRpcRequest; rw [hj]; simp [except_error_bind]⟩
    | bool b =>
      exact ⟨"jsonrpc: Input should be a valid string",
        by unfold mkJsonRpcRequest; rw [hj]; simp [except_error_bind]⟩
    | num n =>
      exact ⟨"jsonrpc: Input should be a valid string",
        by unfold mkJsonRpcRequest; rw [hj]; simp [except_error_bind]⟩
    | arr xs =>
      exact ⟨"jsonrpc: Input should be a valid string",
        by unfold mkJsonRpcRequest; rw [hj]; simp [except_error_bind]⟩
    | obj fs =>
      exact ⟨"jsonrpc: Input should be a valid string",
        by unfold mkJsonRpcRequest; rw [hj]; simp [except_error_bind]⟩


/-- C7: a request missing `method` is answered with error code `-32600`; a
request naming an unregistered method with `-32601`; unparseable JSON text
with `-32700`; and a 2-element batch with one malformed member yields a
2-element array holding one success response and one `-32600` error. -/
theorem spec_c7_error_codes :
    (∀ (freshId : String) (methods : MethodTable) (o : JObj),
      jLookup o "method" = none →
      ∃ d, processSingle freshId methods o
        = some (errResp (jLookup o "id") (-32600) "Invalid Request" d))
    ∧ (∀ (freshId : String) (methods : MethodTable) (o : JObj)
        (req : JsonRpcRequest),
      mkJsonRpcRequest freshId o = .ok req →
      lookupMethod methods req.method = none →
      processSingle freshId methods o
        = some (errResp req.id (-32601) "Method not found"
            (some (.str req.method))))
    ∧ (∀ (parse : String → Except String ParsedReq) (fresh : Nat → String)
        (methods : MethodTable) (s e : String),
      parse s = .error e →
      process_request parse fresh methods (.text s)
        = .single (some (errResp none (-32700) "Parse error" (some (.str e)))))
    ∧ (∀ (parse : String → Except String ParsedReq) (fresh : Nat → String)
        (methods : MethodTable) (o1 o2 : JObj) (req : JsonRpcRequest)
        (f : MethodImpl) (v i : JVal),
      mkJsonRpcRequest (fresh 0) o1 = .ok req →
      req.id = some i →
      (req.params = none ∨ (∃ xs, req.params = some (JVal.arr xs))
        ∨ (∃ fs, req.params = some (JVal.obj fs))) →
      lookupMethod methods req.method = some f →
      f req.params = .ok v →
      jLookup o2 "method" = none →
      ∃ d, process_request parse fresh methods (.batch [o1, o2])
        = .batch [some { jsonrpc := "2.0", result := some v, error := none,
                         id := some i },
                  some (errResp (jLookup o2 "id") (-32600)
                    "Invalid Request" d)]) := by
  refine ⟨?_, ?_, ?_, ?_⟩
  · intro freshId methods o h
    obtain ⟨e, he⟩ := mkJsonRpcRequest_no_method freshId o h
    exact ⟨some (.str e), by unfold processSingle; simp [he]⟩
  · intro freshId methods o req hreq hm
    unfold processSingle
    simp [hreq, hm]
  · intro parse fresh methods s e hp
    unfold process_request
    simp [hp]
  · intro parse fresh methods o1 o2 req f v i hreq hid hshape hm hv hbad
    obtain ⟨e2, he2⟩ := mkJsonRpcRequest_no_method (fresh 1) o2 hbad
    refine ⟨some (.str e2), ?_⟩
    have hfirst : processSingle (fresh 0) methods o1
        = some { jsonrpc := "2.0", result := some v, error := none,
                 id := some i } := by
      unfold processSingle
      rcases hshape with hp0 | ⟨xs, hp0⟩ | ⟨fs, hp0⟩
      · have hv' : f none = .ok v := by rw [← hp0]; exact hv
        simp [hreq, hm, hp0, hv', hid]
      · have hv' : f (some (JVal.arr xs)) = .ok v := by rw [← hp0]; exact hv
        simp [hreq, hm, hp0, hv', hid]
      · have hv' : f (some (JVal.obj fs)) = .ok v := by rw [← hp0]; exact hv
        simp [hreq, hm, hp0, hv', hid]
    have hsecond : processSingle (fresh 1) methods o2
        = some (errResp (jLookup o2 "id") (-32600) "Invalid Request"
            (some (.str e2))) := by
      unfold processSingle
      simp [he2]
    unfold process_request processBatch
    simp only [List.isEmpty_cons, Bool.false_eq_true, if_false]
    rw [show ([o1, o2].enum) = [(0, o1), (1, o2)] from rfl]
    simp only [List.map_cons, List.map_nil]
    rw [hfirst, hsecond]

theorem spec_c7_error_codes_witness :
    (∃ d, processSingle "u0" demoMethods oBad
      = some (errResp (jLookup oBad "id") (-32600) "Invalid Request" d))
    ∧ processSingle "u0" demoMethods oUnknown
        = some (errResp (some (JVal.num 7)) (-32601) "Method not found"
            (some (.str "nope")))
    ∧ process_request parseE freshU demoMethods (.text "x")
        = .single (some (errResp none (-32700) "Parse error"
            (some (.str "Expecting value: line 1 column 1 (char 0)"))))
    ∧ ∃ d, process_request parseE freshU demoMethods (.batch [oPing, oBad])
        = .batch [some { jsonrpc := "2.0",
                         result := some (JVal.obj [("pong", JVal.bool true)]),
                         error := none, id := some (JVal.num 1) },
                  some (errResp (jLookup oBad "id") (-32600)
                    "Invalid Request" d)] := by
  refine ⟨?_, ?_, ?_, ?_⟩
  · exact spec_c7_error_codes.1 "u0" demoMethods oBad rfl
  · exact spec_c7_error_codes.2.1 "u0" demoMethods oUnknown
      { jsonrpc := "2.0", method := "nope", params := none,
        id := some (JVal.num 7) } rfl rfl
  · exact spec_c7_error_codes.2.2.1 parseE freshU demoMethods "x"
      "Expecting value: line 1 column 1 (char 0)" rfl
  · exact spec_c7_error_codes.2.2.2 parseE freshU demoMethods oPing oBad
      { jsonrpc := "2.0", method := "ping", params := none,
        id := some (JVal.num 1) } pingImpl
      (JVal.obj [("pong", JVal.bool true)]) (JVal.num 1)
      rfl rfl (Or.inl rfl) rfl rfl rfl
